import Mathlib

/-!
Shallow embedding of the `waa` web-agent orchestration core
(`waa/tool.py`, `waa/history.py`, `waa/agent.py`, `waa/env.py`),
together with theorems settling the frozen claims about it.

Python runtime values are modelled by the inductive `PyVal`; Python
exceptions by `PyExc`; "the call raised" is modelled by `Except PyExc`.
External collaborators (the language-model backend and the JSON
library) are parameters of the loop model (`LoopEnv`), as the spec
treats them as external boundaries.
-/

namespace WAA

/-- A raised Python exception: `kind` is `type(e).__name__`, `msg` is `str(e)`. -/
structure PyExc where
  kind : String
  msg : String
deriving Repr, DecidableEq

/-- Runtime type tags for `PyVal` (the result of Python `type(x)`).
`objectClass c` is the class of an opaque object of class named `c`. -/
inductive PyType where
  | noneType
  | bool
  | int
  | str
  | list
  | dict
  | objectClass (className : String)
deriving Repr, DecidableEq

/-- The Python values the agent core manipulates: everything JSON can
produce, plus `obj`, an opaque non-JSON-serializable object with a class
name and a fixed `str()` rendering (tool results can be arbitrary objects). -/
inductive PyVal where
  | none
  | bool (b : Bool)
  | int (n : Int)
  | str (s : String)
  | list (xs : List PyVal)
  | dict (xs : List (String × PyVal))
  | obj (className : String) (strForm : String)
deriving Repr

/-- Python `type(v)`. -/
def PyVal.typeOf : PyVal → PyType
  | .none => .noneType
  | .bool _ => .bool
  | .int _ => .int
  | .str _ => .str
  | .list _ => .list
  | .dict _ => .dict
  | .obj c _ => .objectClass c

/-- Python truthiness test, negated: `falsy v = true` iff `not v` holds
(i.e. `if not v:` takes the branch). -/
def PyVal.falsy : PyVal → Bool
  | .none => true
  | .bool b => !b
  | .int n => n == 0
  | .str s => s.isEmpty
  | .list xs => xs.isEmpty
  | .dict xs => xs.isEmpty
  | .obj _ _ => false

/-- The Python type name shown in exception messages. -/
def PyVal.typeName : PyVal → String
  | .none => "NoneType"
  | .bool _ => "bool"
  | .int _ => "int"
  | .str _ => "str"
  | .list _ => "list"
  | .dict _ => "dict"
  | .obj c _ => c

mutual

/-- Python `str(v)`. For containers this is `repr`-style rendering; the
exact quoting of nested strings is a rendering choice the claims never
depend on. For `obj` it is the object's fixed `str()` form. -/
def pyStr : PyVal → String
  | .none => "None"
  | .bool b => if b then "True" else "False"
  | .int n => toString n
  | .str s => s
  | .list xs => "[" ++ pyReprList xs ++ "]"
  | .dict xs => "\x7b" ++ pyReprDict xs ++ "\x7d"
  | .obj _ s => s

/-- Python `repr(v)` (as used when rendering container elements). -/
def pyRepr : PyVal → String
  | .none => "None"
  | .bool b => if b then "True" else "False"
  | .int n => toString n
  | .str s => "\x27" ++ s ++ "\x27"
  | .list xs => "[" ++ pyReprList xs ++ "]"
  | .dict xs => "\x7b" ++ pyReprDict xs ++ "\x7d"
  | .obj _ s => s

def pyReprList : List PyVal → String
  | [] => ""
  | [v] => pyRepr v
  | v :: w :: rest => pyRepr v ++ ", " ++ pyReprList (w :: rest)

def pyReprDict : List (String × PyVal) → String
  | [] => ""
  | [(k, v)] => "\x27" ++ k ++ "\x27: " ++ pyRepr v
  | (k, v) :: p :: rest => "\x27" ++ k ++ "\x27: " ++ pyRepr v ++ ", " ++ pyReprDict (p :: rest)

end

mutual

/-- Whether `json.dumps` accepts the value (default encoder): true for
JSON-representable values, false as soon as an opaque `obj` occurs. -/
def serializable : PyVal → Bool
  | .none => true
  | .bool _ => true
  | .int _ => true
  | .str _ => true
  | .list xs => serializableList xs
  | .dict xs => serializableDict xs
  | .obj _ _ => false

def serializableList : List PyVal → Bool
  | [] => true
  | v :: rest => serializable v && serializableList rest

def serializableDict : List (String × PyVal) → Bool
  | [] => true
  | (_, v) :: rest => serializable v && serializableDict rest

end

mutual

/-- The text produced by `json.dumps` on a serializable value
(default separators `", "` and `": "`; string escaping elided). -/
def renderJson : PyVal → String
  | .none => "null"
  | .bool b => if b then "true" else "false"
  | .int n => toString n
  | .str s => "\"" ++ s ++ "\""
  | .list xs => "[" ++ renderJsonList xs ++ "]"
  | .dict xs => "\x7b" ++ renderJsonDict xs ++ "\x7d"
  | .obj _ s => s

def renderJsonList : List PyVal → String
  | [] => ""
  | [v] => renderJson v
  | v :: w :: rest => renderJson v ++ ", " ++ renderJsonList (w :: rest)

def renderJsonDict : List (String × PyVal) → String
  | [] => ""
  | [(k, v)] => "\"" ++ k ++ "\": " ++ renderJson v
  | (k, v) :: p :: rest => "\"" ++ k ++ "\": " ++ renderJson v ++ ", " ++ renderJsonDict (p :: rest)

end

/-- `json.dumps(v)`: raises `TypeError` on non-serializable values. -/
def jsonDumps (v : PyVal) : Except PyExc String :=
  if serializable v then Except.ok (renderJson v)
  else Except.error ⟨"TypeError", "Object of type " ++ v.typeName ++ " is not JSON serializable"⟩

/-- First-occurrence lookup in a Python dict with string keys
(`d[k]` / `k in d` presence). -/
def argLookup : List (String × PyVal) → String → Option PyVal
  | [], _ => Option.none
  | (k, v) :: rest, key => if k = key then Option.some v else argLookup rest key

/-- `pat` occurs as a contiguous sublist of the text. -/
def listContainsSub (pat : List Char) : List Char → Bool
  | [] => pat.isPrefixOf []
  | c :: rest => pat.isPrefixOf (c :: rest) || listContainsSub pat rest

/-- Python `pat in s` on strings. -/
def strContains (s pat : String) : Bool :=
  listContainsSub pat.data s.data

/-- Python `key in container` for a string key: dict key membership, list
element membership (string keys only equal string elements), substring
test on strings; `TypeError` on non-iterable values. -/
def pyIn (key : String) : PyVal → Except PyExc Bool
  | .dict m => Except.ok (argLookup m key).isSome
  | .list xs => Except.ok (xs.any fun v => match v with | .str s => s == key | _ => false)
  | .str s => Except.ok (listContainsSub key.data s.data)
  | v => Except.error ⟨"TypeError", "argument of type " ++ v.typeName ++ " is not iterable"⟩

/-- Python `container[key]` for a string key. -/
def pyGetItem (container : PyVal) (key : String) : Except PyExc PyVal :=
  match container with
  | .dict m =>
    match argLookup m key with
    | Option.some v => Except.ok v
    | Option.none => Except.error ⟨"KeyError", key⟩
  | .str _ => Except.error ⟨"TypeError", "string indices must be integers"⟩
  | .list _ => Except.error ⟨"TypeError", "list indices must be integers, not str"⟩
  | v => Except.error ⟨"TypeError", "\x27" ++ v.typeName ++ "\x27 object is not subscriptable"⟩

/-! ## `waa/tool.py` -/

/-- `ToolArgument` (`waa/tool.py`): a declared argument. `type` is the
declared Python class (`None` means unchecked), modelled as a type tag. -/
structure ToolArgument where
  name : String
  description : String
  required : Bool
  type : Option PyType

/-- `ToolArgument.validate`: the supplied value is accepted unless a type
is declared and the value's exact runtime type differs from it
(`if self.type is not None and type(input) != self.type: return False`). -/
def ToolArgument.validate (a : ToolArgument) (input : PyVal) : Bool :=
  match a.type with
  | Option.none => true
  | Option.some t => decide (input.typeOf = t)

/-- `ToolSchema` (`waa/tool.py`): its `arguments` dict, as the list of
declared arguments in iteration order (`self.arguments.values()`). -/
structure ToolSchema where
  arguments : List ToolArgument

/-- The loop body of `ToolSchema.validate`: for each declared argument,
raise `ValueError("Argument <name> is required")` when it is required and
absent, raise `ValueError("Argument <name> is invalid")` when it is
present with a value its spec rejects. Membership/indexing on a non-dict
`input` raises `TypeError`, which also propagates. -/
def validateArgs (args : List ToolArgument) (input : PyVal) : Except PyExc Bool :=
  match args with
  | [] => Except.ok true
  | a :: rest => do
    let present ← pyIn a.name input
    if !present && a.required then
      Except.error ⟨"ValueError", "Argument " ++ a.name ++ " is required"⟩
    else if present then do
      let v ← pyGetItem input a.name
      if !(a.validate v) then
        Except.error ⟨"ValueError", "Argument " ++ a.name ++ " is invalid"⟩
      else validateArgs rest input
    else validateArgs rest input

/-- `ToolSchema.validate` (`waa/tool.py` lines 29-35). -/
def ToolSchema.validate (s : ToolSchema) (input : PyVal) : Except PyExc Bool :=
  validateArgs s.arguments input

/-- `Tool` (`waa/tool.py`): a name, a schema, and the `execute` body.
`execute` is the tool's own code — external to the core — so it is
modelled as an arbitrary function that may return a value or raise. -/
structure Tool where
  name : String
  schema : ToolSchema
  execute : PyVal → Except PyExc PyVal

/-- The registry's name-keyed dict of tools (`ToolRegistry.tools`). -/
def toolLookup : List (String × Tool) → String → Option Tool
  | [], _ => Option.none
  | (k, v) :: rest, key => if k = key then Option.some v else toolLookup rest key

/-- Whether the value is unhashable in Python (cannot be used as a dict
key): lists and dicts are, every other value in this universe — including
an arbitrary object, hashable by identity — is not. -/
def PyVal.unhashable : PyVal → Bool
  | .list _ => true
  | .dict _ => true
  | _ => false

/-- `ToolRegistry.get_tool(name)` (`waa/tool.py` line 63), i.e.
`self.tools[name]`, as called by `execute_tool` on an arbitrary
dispatched name value: indexing a dict of string keys raises `TypeError`
for an unhashable key (list, dict), succeeds for a string key present in
the dict, and raises `KeyError` for every other key. -/
def get_tool (reg : List (String × Tool)) : PyVal → Except PyExc Tool
  | .list _ => Except.error ⟨"TypeError", "unhashable type: \x27list\x27"⟩
  | .dict _ => Except.error ⟨"TypeError", "unhashable type: \x27dict\x27"⟩
  | .str s =>
    match toolLookup reg s with
    | Option.some tool => Except.ok tool
    | Option.none => Except.error ⟨"KeyError", pyRepr (PyVal.str s)⟩
  | v => Except.error ⟨"KeyError", pyRepr v⟩

/-! ## `waa/env.py` -/

/-- Python `key.split(".")`. -/
def splitOnDot : List Char → List (List Char)
  | [] => [[]]
  | c :: rest =>
    match splitOnDot rest with
    | [] => [[]]
    | g :: gs => if c = '.' then [] :: g :: gs else (c :: g) :: gs

/-- The walk inside `AgentEnvironment.get_config_value`: for each path
part, `if part not in current_dict: return default` then
`current_dict = current_dict[part]`. -/
def configWalk (parts : List String) (cur default : PyVal) : Except PyExc PyVal :=
  match parts with
  | [] => Except.ok cur
  | p :: rest => do
    let present ← pyIn p cur
    if !present then Except.ok default
    else do
      let nxt ← pyGetItem cur p
      configWalk rest nxt default

/-- `AgentEnvironment.get_config_value` (`waa/env.py` lines 12-19). -/
def get_config_value (config : PyVal) (key : String) (default : PyVal) : Except PyExc PyVal :=
  configWalk ((splitOnDot key.data).map String.mk) config default

/-! ## `waa/history.py` -/

/-- `ToolCallResult` (`waa/history.py`): tool name, supplied arguments,
result value, optional error text. All creation sites pass a string (or
`None`) for `error`; a non-string dispatched tool name is recorded via its
`str()` form. -/
structure ToolCallResult where
  tool_name : String
  arguments : PyVal
  result : PyVal
  error : Option String

/-- The four concrete `HistoryEntry` variants of `waa/history.py` (the
only entry kinds the agent ever appends). -/
inductive HistoryEntry where
  | systemPrompt (prompt : String)
  | userInstruction (instruction : String)
  | llmResponse (response : String)
  | toolCallResult (tcr : ToolCallResult)

/-- The `role` constant each variant's constructor stores
(`super().__init__(...)` in `waa/history.py`). -/
def HistoryEntry.role : HistoryEntry → String
  | .systemPrompt _ => "system"
  | .userInstruction _ => "user"
  | .llmResponse _ => "assistant"
  | .toolCallResult _ => "tool"

/-! ## `waa/agent.py` -/

/-- The success-side text of `Agent._extract_text_for_entry` for a
`ToolCallResult`: dict/list results are `json.dumps`ed inside a
`try/except` whose failure falls through to the plain
`f"[Tool:<name>] <result>"` format; other results go straight to it. -/
def successResultText (tool_name : String) (result : PyVal) : String :=
  match result with
  | .dict xs =>
    match jsonDumps (.dict xs) with
    | Except.ok s => "[Tool:" ++ tool_name ++ "] " ++ s
    | Except.error _ => "[Tool:" ++ tool_name ++ "] " ++ pyStr (.dict xs)
  | .list xs =>
    match jsonDumps (.list xs) with
    | Except.ok s => "[Tool:" ++ tool_name ++ "] " ++ s
    | Except.error _ => "[Tool:" ++ tool_name ++ "] " ++ pyStr (.list xs)
  | r => "[Tool:" ++ tool_name ++ "] " ++ pyStr r

/-- `Agent._extract_text_for_entry` (`waa/agent.py` lines 58-93).
A `ToolCallResult` with a truthy (non-empty) error renders as
`[Tool:<name>] (error) <error>`; otherwise its result is rendered.
The other three variants return their string content
(`entry.get_content()` then `str`). The final `str(entry)` / `""`
fallbacks are unreachable for these four variants. -/
def extract_text_for_entry : HistoryEntry → String
  | .systemPrompt p => p
  | .userInstruction i => i
  | .llmResponse r => r
  | .toolCallResult tcr =>
    match tcr.error with
    | Option.some e =>
      if e.isEmpty then successResultText tcr.tool_name tcr.result
      else "[Tool:" ++ tcr.tool_name ++ "] (error) " ++ e
    | Option.none => successResultText tcr.tool_name tcr.result

/-- `Agent._history_to_messages` (`waa/agent.py` lines 95-112): one
`(role, content)` message per history entry, in order. Note the
`ToolCallResult` branch emits role `"system"`. -/
def history_to_messages : List HistoryEntry → List (String × String)
  | [] => []
  | e :: rest =>
    (match e with
     | .systemPrompt _ => ("system", extract_text_for_entry e)
     | .userInstruction _ => ("user", extract_text_for_entry e)
     | .llmResponse _ => ("assistant", extract_text_for_entry e)
     | .toolCallResult _ => ("system", extract_text_for_entry e))
    :: history_to_messages rest

/-- `Agent.execute_tool` (`waa/agent.py` lines 307-379), acting on the
history it appends to. The parsed `tool_call` is an arbitrary JSON value:
`.get` on a non-dict raises `AttributeError` (which `run` does not catch).
On a dict, the dispatch cascade runs: falsy/absent `tool` field; registry
lookup, whose `KeyError` alone is caught (`except KeyError`, lines
325-327) — a `TypeError` from an unhashable name propagates uncaught;
schema validation failure (any exception caught); `execute` exception
(caught, rendered `<kind>: <msg>`); success. -/
def execute_tool (reg : List (String × Tool)) (history : List HistoryEntry)
    (tool_call : PyVal) : Except PyExc (List HistoryEntry × ToolCallResult) :=
  match tool_call with
  | .dict m =>
    let arguments := (argLookup m "arguments").getD (PyVal.dict [])
    match argLookup m "tool" with
    | Option.none =>
      let tcr : ToolCallResult :=
        ⟨"(missing)", arguments, PyVal.none, Option.some "Missing \x27tool\x27 in tool_call"⟩
      Except.ok (history ++ [HistoryEntry.toolCallResult tcr], tcr)
    | Option.some nameVal =>
      if nameVal.falsy then
        let tcr : ToolCallResult :=
          ⟨"(missing)", arguments, PyVal.none, Option.some "Missing \x27tool\x27 in tool_call"⟩
        Except.ok (history ++ [HistoryEntry.toolCallResult tcr], tcr)
      else
        match get_tool reg nameVal with
        | Except.error e =>
          if e.kind = "KeyError" then
            let tcr : ToolCallResult :=
              ⟨pyStr nameVal, arguments, PyVal.none,
               Option.some ("Unknown tool: " ++ pyStr nameVal)⟩
            Except.ok (history ++ [HistoryEntry.toolCallResult tcr], tcr)
          else
            Except.error e
        | Except.ok tool =>
          match tool.schema.validate arguments with
          | Except.error e =>
            let tcr : ToolCallResult :=
              ⟨pyStr nameVal, arguments, PyVal.none,
               Option.some ("Invalid arguments: " ++ e.msg)⟩
            Except.ok (history ++ [HistoryEntry.toolCallResult tcr], tcr)
          | Except.ok _ =>
            match tool.execute arguments with
            | Except.error e =>
              let tcr : ToolCallResult :=
                ⟨pyStr nameVal, arguments, PyVal.none,
                 Option.some (e.kind ++ ": " ++ e.msg)⟩
              Except.ok (history ++ [HistoryEntry.toolCallResult tcr], tcr)
            | Except.ok result =>
              let tcr : ToolCallResult := ⟨pyStr nameVal, arguments, result, Option.none⟩
              Except.ok (history ++ [HistoryEntry.toolCallResult tcr], tcr)
  | other =>
    Except.error ⟨"AttributeError",
      "\x27" ++ other.typeName ++ "\x27 object has no attribute \x27get\x27"⟩

/-- Python whitespace, as stripped by `str.strip()`. -/
def pyIsSpace (c : Char) : Bool :=
  c == ' ' || c == '\t' || c == '\n' || c == '\r' || c == '\x0b' || c == '\x0c'

/-- Python `s.strip()`. -/
def pyStrip (s : String) : String :=
  String.mk (((s.data.dropWhile pyIsSpace).reverse.dropWhile pyIsSpace).reverse)

/-- `text = before ++ pat ++ after` split at the first occurrence of
`pat`; `Option.none` when `pat` does not occur. -/
def splitFirst (pat : List Char) : List Char → Option (List Char × List Char)
  | [] => if pat.isPrefixOf ([] : List Char) then Option.some ([], []) else Option.none
  | c :: rest =>
    if pat.isPrefixOf (c :: rest) then Option.some ([], (c :: rest).drop pat.length)
    else (splitFirst pat rest).map fun p => (c :: p.1, p.2)

/-- The search `re.compile(r"<tool_call>(.*?)</tool_call>", re.DOTALL)`
performed by `Agent.run`: contents between the first `<tool_call>` and
the first `</tool_call>` after it (non-greedy, newlines included). -/
def findToolCall (text : String) : Option String :=
  match splitFirst "<tool_call>".data text.data with
  | Option.none => Option.none
  | Option.some (_, rest) =>
    match splitFirst "</tool_call>".data rest with
    | Option.none => Option.none
    | Option.some (inner, _) => Option.some (String.mk inner)

/-- The loop's external collaborators: the language-model backend
(`llm.generate` on the projected messages) and the JSON library
(`json.loads`, returning a value or raising). -/
structure LoopEnv where
  gen : List (String × String) → String
  jsonLoads : String → Except PyExc PyVal

/-- How a run of `Agent.run` ends. `crashed` is an exception escaping the
loop (e.g. `.get` on a JSON value that is not an object). -/
inductive Outcome where
  | terminated (turn : Nat)
  | protocolViolated (turn : Nat)
  | exhausted
  | crashed (e : PyExc)
deriving Repr, DecidableEq

/-- The body of `for turn in range(1, max_turns + 1)` in `Agent.run`
(`waa/agent.py` lines 391-425), with `fuel` the number of turns still
allowed (`max_turns + 1 - t`). Each iteration: project the history,
query the model, append the `LLMResponse`; terminate on the marker;
otherwise search for a tool-call wrapper — invalid JSON records a
`(parse_error)` `ToolCallResult` and continues, a parsed value is
dispatched through `execute_tool` and the loop continues; no wrapper
stops the loop (protocol violation). The `for`-else exhaustion is
`fuel = 0`. -/
def runFrom (env : LoopEnv) (reg : List (String × Tool)) :
    Nat → Nat → List HistoryEntry → List HistoryEntry × Outcome
  | 0, _, history => (history, Outcome.exhausted)
  | fuel + 1, t, history =>
    if strContains (env.gen (history_to_messages history)) "<terminate>" then
      (history ++ [HistoryEntry.llmResponse (env.gen (history_to_messages history))],
       Outcome.terminated t)
    else
      match findToolCall (env.gen (history_to_messages history)) with
      | Option.some inner =>
        match env.jsonLoads (pyStrip inner) with
        | Except.error e =>
          runFrom env reg fuel (t + 1)
            (history ++
              [HistoryEntry.llmResponse (env.gen (history_to_messages history)),
               HistoryEntry.toolCallResult
                 ⟨"(parse_error)", PyVal.dict [("raw", PyVal.str (pyStrip inner))],
                  PyVal.str "",
                  Option.some ("Invalid tool_call JSON: " ++ e.kind ++ ": " ++ e.msg)⟩])
        | Except.ok call_obj =>
          match execute_tool reg
              (history ++ [HistoryEntry.llmResponse (env.gen (history_to_messages history))])
              call_obj with
          | Except.ok (h2, _) => runFrom env reg fuel (t + 1) h2
          | Except.error e =>
            (history ++ [HistoryEntry.llmResponse (env.gen (history_to_messages history))],
             Outcome.crashed e)
      | Option.none =>
        (history ++ [HistoryEntry.llmResponse (env.gen (history_to_messages history))],
         Outcome.protocolViolated t)

/-- `Agent.run` after startup: history seeded with the system prompt and
the user instruction, turns 1 through `maxTurns`. -/
def run (env : LoopEnv) (reg : List (String × Tool)) (maxTurns : Nat)
    (sysText instruction : String) : List HistoryEntry × Outcome :=
  runFrom env reg maxTurns 1
    [HistoryEntry.systemPrompt sysText, HistoryEntry.userInstruction instruction]

/-- Number of turns issued in a history: one `LLMResponse` is appended
per model query (`Agent.query_llm`). -/
def turnsIssued (h : List HistoryEntry) : Nat :=
  h.countP (fun e => match e with | HistoryEntry.llmResponse _ => true | _ => false)

/-! ## `Agent.initialize_tool_registry` (`waa/agent.py` lines 160-190) -/

/-- A discovered candidate tool as the registration loop sees it: its
identity (`id` distinguishes instances), its `name` attribute
(`getattr(tool, "name", None)`), and whether its `initialize(env)` call
raises. -/
structure CandidateTool where
  id : Nat
  name : Option String
  initFails : Bool

/-- Python dict assignment `d[k] = v`: replaces in place, else appends. -/
def dictInsertNat (m : List (String × Nat)) (k : String) (v : Nat) : List (String × Nat) :=
  match m with
  | [] => [(k, v)]
  | (k2, v2) :: rest => if k2 = k then (k2, v) :: rest else (k2, v2) :: dictInsertNat rest k v

/-- Lookup in the built registry. -/
def natLookup : List (String × Nat) → String → Option Nat
  | [], _ => Option.none
  | (k, v) :: rest, key => if k = key then Option.some v else natLookup rest key

/-- One step of the registration loop: skip a candidate with a falsy
name; skip it when an allow-list is configured and its name is absent;
otherwise call `initialize` (failures only logged) and register through
`ToolRegistry.register_tool`, i.e. dict assignment keyed by name. -/
def registerStep (allowed : Option (List String)) (reg : List (String × Nat))
    (c : CandidateTool) : List (String × Nat) :=
  match c.name with
  | Option.none => reg
  | Option.some n =>
    if n.isEmpty then reg
    else
      match allowed with
      | Option.some allow => if allow.contains n then dictInsertNat reg n c.id else reg
      | Option.none => dictInsertNat reg n c.id

/-- The registration loop of `Agent.initialize_tool_registry` over the
discovered candidates, building the name-keyed registry. -/
def build_tool_registry (allowed : Option (List String))
    (cands : List CandidateTool) : List (String × Nat) :=
  cands.foldl (registerStep allowed) []

/-- The allow-list test of the registration loop:
`(allowed_tools is not None) and (name not in allowed_tools)` negated. -/
def allowPasses (allowed : Option (List String)) (n : String) : Bool :=
  match allowed with
  | Option.some allow => allow.contains n
  | Option.none => true

/-! ## Theorems -/

/-- Claim C10: `ToolArgument.validate` accepts a supplied value iff the
argument declares no type or the value's runtime type is exactly the
declared type; in particular a `bool` supplied for an argument declared
`int` is rejected (Python `type(True)` is `bool`, not `int`). -/
theorem tool_argument_validate_exact_type :
    (∀ (a : ToolArgument) (v : PyVal),
      a.validate v = true ↔ (a.type = Option.none ∨ a.type = Option.some v.typeOf)) ∧
    (∀ (nm de : String) (req b : Bool),
      ToolArgument.validate ⟨nm, de, req, Option.some PyType.int⟩ (PyVal.bool b) = false) := by
  constructor
  · intro a v
    cases h : a.type with
    | none => simp [ToolArgument.validate, h]
    | some t => simp [ToolArgument.validate, h, eq_comm]
  · intro nm de req b
    rfl

/-- Claim C10 witness: instantiates the theorem at a concrete
`int`-declared argument and a concrete `bool` value. -/
theorem tool_argument_validate_exact_type_witness :
    ToolArgument.validate ⟨"n", "d", true, Option.some PyType.int⟩ (PyVal.bool true) = false :=
  tool_argument_validate_exact_type.2 "n" "d" true true

/-- Claim C2 counterexample: a history consisting of one successful
`ToolCallResult` is projected with role `"system"`, not role `"tool"`,
even though the entry's internally stored role constant is `"tool"`. -/
theorem tool_result_role_counterexample :
    history_to_messages
        [HistoryEntry.toolCallResult ⟨"t", PyVal.dict [], PyVal.str "ok", Option.none⟩]
      = [("system", "[Tool:t] ok")]
    ∧ (HistoryEntry.toolCallResult ⟨"t", PyVal.dict [], PyVal.str "ok", Option.none⟩).role
        = "tool"
    ∧ ("system" : String) ≠ "tool" :=
  ⟨rfl, rfl, by decide⟩

/-- Claim C2 (amended): every `ToolCallResult` entry in the history is
projected into the model-input messages with role `"system"` (not the
role constant `"tool"` stored on the entry internally). -/
theorem tool_result_projected_role_system :
    ∀ (h : List HistoryEntry) (i : Nat) (tcr : ToolCallResult),
      h[i]? = Option.some (HistoryEntry.toolCallResult tcr) →
      (history_to_messages h)[i]? =
        Option.some ("system", extract_text_for_entry (HistoryEntry.toolCallResult tcr))
      ∧ (HistoryEntry.toolCallResult tcr).role = "tool" := by
  intro h
  induction h with
  | nil => intro i tcr hh; simp at hh
  | cons e rest ih =>
    intro i tcr hh
    cases i with
    | zero =>
      simp only [List.getElem?_cons_zero, Option.some.injEq] at hh
      subst hh
      exact ⟨by simp [history_to_messages], rfl⟩
    | succ n =>
      simp only [List.getElem?_cons_succ] at hh
      have := ih n tcr hh
      simpa [history_to_messages] using this

/-- Claim C2 witness: the amended theorem applied to a concrete
two-entry history whose second entry is a `ToolCallResult`. -/
theorem tool_result_projected_role_system_witness :
    (history_to_messages
        [HistoryEntry.llmResponse "r",
         HistoryEntry.toolCallResult ⟨"t", PyVal.dict [], PyVal.str "", Option.none⟩])[1]? =
      Option.some ("system", "[Tool:t] ")
    ∧ (HistoryEntry.toolCallResult
        (⟨"t", PyVal.dict [], PyVal.str "", Option.none⟩ : ToolCallResult)).role = "tool" :=
  tool_result_projected_role_system
    [HistoryEntry.llmResponse "r",
     HistoryEntry.toolCallResult ⟨"t", PyVal.dict [], PyVal.str "", Option.none⟩]
    1 ⟨"t", PyVal.dict [], PyVal.str "", Option.none⟩ rfl

/-- Whenever `execute_tool` returns (rather than raising), the history it
returns is the input history with exactly the returned `ToolCallResult`
appended. -/
lemma execute_tool_ok_shape (reg : List (String × Tool)) (h : List HistoryEntry)
    (co : PyVal) (h2 : List HistoryEntry) (tcr : ToolCallResult)
    (hok : execute_tool reg h co = Except.ok (h2, tcr)) :
    h2 = h ++ [HistoryEntry.toolCallResult tcr] := by
  cases co <;> simp only [execute_tool] at hok <;> try exact absurd hok (by simp)
  case dict m =>
    repeat' split at hok
    all_goals
      try exact Except.noConfusion hok
    all_goals
      simp only [Except.ok.injEq, Prod.mk.injEq] at hok
    all_goals
      obtain ⟨h1, h2'⟩ := hok
    all_goals
      subst h2'
    all_goals
      exact h1.symm

/-- The loop only ever appends to the history it is given. -/
lemma runFrom_extends (env : LoopEnv) (reg : List (String × Tool)) :
    ∀ (fuel t : Nat) (h : List HistoryEntry),
      ∃ ext, (runFrom env reg fuel t h).1 = h ++ ext := by
  intro fuel
  induction fuel with
  | zero => intro t h; exact ⟨[], by simp [runFrom]⟩
  | succ n ih =>
    intro t h
    simp only [runFrom]
    split
    · exact ⟨[HistoryEntry.llmResponse (env.gen (history_to_messages h))], rfl⟩
    · split
      · split
        · obtain ⟨ext, hext⟩ := ih (t + 1) _
          exact ⟨_, by rw [hext, List.append_assoc]⟩
        · rename_i call_obj heq
          split
          · rename_i h2 tcr hexec
            obtain ⟨ext, hext⟩ := ih (t + 1) h2
            have hshape := execute_tool_ok_shape reg
              (h ++ [HistoryEntry.llmResponse (env.gen (history_to_messages h))]) call_obj
              h2 tcr hexec
            exact ⟨_, by rw [hext, hshape, List.append_assoc, List.append_assoc]⟩
          · exact ⟨[HistoryEntry.llmResponse (env.gen (history_to_messages h))], rfl⟩
      · exact ⟨[HistoryEntry.llmResponse (env.gen (history_to_messages h))], rfl⟩

/-- Claim C7: the projection yields exactly one role/content pair per
history entry, in the same order; the loop's history always starts with
the system prompt then the user instruction, whose projected roles are
`"system"` then `"user"`; and entry text extraction is a total function
that, when `json.dumps` of a structured result fails, falls back to the
`str` rendering instead of raising. -/
theorem projection_shape_and_totality :
    (∀ h : List HistoryEntry, (history_to_messages h).length = h.length) ∧
    (∀ (h : List HistoryEntry) (i : Nat),
      ((history_to_messages h)[i]?).map Prod.snd = (h[i]?).map extract_text_for_entry) ∧
    (∀ (env : LoopEnv) (reg : List (String × Tool)) (maxTurns : Nat) (s u : String),
      ∃ rest, (run env reg maxTurns s u).1 =
        HistoryEntry.systemPrompt s :: HistoryEntry.userInstruction u :: rest) ∧
    (∀ (s u : String) (rest : List HistoryEntry),
      ((history_to_messages
          (HistoryEntry.systemPrompt s :: HistoryEntry.userInstruction u :: rest))[0]?).map
            Prod.fst = Option.some "system" ∧
      ((history_to_messages
          (HistoryEntry.systemPrompt s :: HistoryEntry.userInstruction u :: rest))[1]?).map
            Prod.fst = Option.some "user") ∧
    (∀ (nm : String) (args : PyVal) (xs : List (String × PyVal)),
      serializable (PyVal.dict xs) = false →
      extract_text_for_entry
          (HistoryEntry.toolCallResult ⟨nm, args, PyVal.dict xs, Option.none⟩) =
        "[Tool:" ++ nm ++ "] " ++ pyStr (PyVal.dict xs)) := by
  refine ⟨?_, ?_, ?_, ?_, ?_⟩
  · intro h
    induction h with
    | nil => rfl
    | cons e rest ih => simp [history_to_messages, ih]
  · intro h
    induction h with
    | nil => intro i; rfl
    | cons e rest ih =>
      intro i
      cases i with
      | zero => cases e <;> simp [history_to_messages]
      | succ n => simpa [history_to_messages] using ih n
  · intro env reg maxTurns s u
    obtain ⟨ext, hext⟩ := runFrom_extends env reg maxTurns 1
      [HistoryEntry.systemPrompt s, HistoryEntry.userInstruction u]
    exact ⟨ext, by simpa [run] using hext⟩
  · intro s u rest
    exact ⟨by simp [history_to_messages], by simp [history_to_messages]⟩
  · intro nm args xs hser
    simp [extract_text_for_entry, successResultText, jsonDumps, hser]

/-- Claim C7 witness: the projection facts instantiated on a concrete
history, and the `str` fallback on a concrete result dict containing a
non-serializable object. -/
theorem projection_shape_and_totality_witness :
    (history_to_messages [HistoryEntry.systemPrompt "s"]).length =
      ([HistoryEntry.systemPrompt "s"] : List HistoryEntry).length ∧
    extract_text_for_entry
        (HistoryEntry.toolCallResult
          ⟨"t", PyVal.dict [], PyVal.dict [("a", PyVal.obj "Session" "<sess>")],
           Option.none⟩) =
      "[Tool:" ++ "t" ++ "] " ++ pyStr (PyVal.dict [("a", PyVal.obj "Session" "<sess>")]) :=
  ⟨projection_shape_and_totality.1 [HistoryEntry.systemPrompt "s"],
   projection_shape_and_totality.2.2.2.2 "t" (PyVal.dict [])
     [("a", PyVal.obj "Session" "<sess>")] (by decide)⟩

/-- Claim C3: the termination marker short-circuits tool-call detection.
A turn whose response contains `<terminate>` — even when it also contains
a tool-call wrapper — appends only the `LLMResponse` and stops the loop
in the `Terminated` state: the bundled tool call is never dispatched. -/
theorem terminate_short_circuits_tool_call :
    ∀ (env : LoopEnv) (reg : List (String × Tool)) (fuel t : Nat)
      (h : List HistoryEntry) (inner : String),
      strContains (env.gen (history_to_messages h)) "<terminate>" = true →
      findToolCall (env.gen (history_to_messages h)) = Option.some inner →
      runFrom env reg (fuel + 1) t h =
        (h ++ [HistoryEntry.llmResponse (env.gen (history_to_messages h))],
         Outcome.terminated t) := by
  intro env reg fuel t h inner hterm _
  simp [runFrom, hterm]

/-- Backend fixture whose every response carries both the termination
marker and a tool-call wrapper. -/
def envBoth : LoopEnv :=
  { gen := fun _ => "<terminate><tool_call>\x7b\x7d</tool_call>",
    jsonLoads := fun _ => Except.ok (PyVal.dict []) }

/-- Claim C3 witness: with a concrete backend that answers with both the
marker and a wrapper, turn 1 terminates without dispatching. -/
theorem terminate_short_circuits_tool_call_witness :
    runFrom envBoth [] 1 1 [] =
      ([HistoryEntry.llmResponse "<terminate><tool_call>\x7b\x7d</tool_call>"],
       Outcome.terminated 1) :=
  terminate_short_circuits_tool_call envBoth [] 0 1 [] "\x7b\x7d" (by decide) (by decide)

/-- Claim C5: a turn whose response carries a tool-call wrapper with
invalid JSON appends (after the `LLMResponse`) a `ToolCallResult` named
`(parse_error)` holding the raw wrapper text as the `"raw"` argument and
an error naming the parse failure, and the loop continues with the next
turn. -/
theorem parse_error_recorded_and_loop_continues :
    ∀ (env : LoopEnv) (reg : List (String × Tool)) (fuel t : Nat)
      (h : List HistoryEntry) (inner : String) (e : PyExc),
      strContains (env.gen (history_to_messages h)) "<terminate>" = false →
      findToolCall (env.gen (history_to_messages h)) = Option.some inner →
      env.jsonLoads (pyStrip inner) = Except.error e →
      runFrom env reg (fuel + 1) t h =
        runFrom env reg fuel (t + 1)
          (h ++ [HistoryEntry.llmResponse (env.gen (history_to_messages h)),
                 HistoryEntry.toolCallResult
                   ⟨"(parse_error)", PyVal.dict [("raw", PyVal.str (pyStrip inner))],
                    PyVal.str "",
                    Option.some ("Invalid tool_call JSON: " ++ e.kind ++ ": " ++ e.msg)⟩]) := by
  intro env reg fuel t h inner e hterm hfind hjson
  simp [runFrom, hterm, hfind, hjson]

/-- Backend fixture producing a wrapper whose contents do not parse as
JSON (the JSON library rejects everything it is given). -/
def envBadJson : LoopEnv :=
  { gen := fun _ => "<tool_call>bogus</tool_call>",
    jsonLoads := fun _ =>
      Except.error ⟨"JSONDecodeError", "Expecting value: line 1 column 1 (char 0)"⟩ }

/-- Claim C5 witness: a concrete invalid-JSON wrapper records the
`(parse_error)` entry and hands control to turn 2. -/
theorem parse_error_recorded_and_loop_continues_witness :
    runFrom envBadJson [] 1 1 [] =
      runFrom envBadJson [] 0 2
        [HistoryEntry.llmResponse "<tool_call>bogus</tool_call>",
         HistoryEntry.toolCallResult
           ⟨"(parse_error)", PyVal.dict [("raw", PyVal.str "bogus")], PyVal.str "",
            Option.some
              "Invalid tool_call JSON: JSONDecodeError: Expecting value: line 1 column 1 (char 0)"⟩] :=
  parse_error_recorded_and_loop_continues envBadJson [] 0 1 [] "bogus"
    ⟨"JSONDecodeError", "Expecting value: line 1 column 1 (char 0)"⟩
    (by decide) (by decide) rfl

/-- Claim C6: a turn whose response contains neither the termination
marker nor a tool-call wrapper stops the loop in the protocol-violated
state: beyond the turn's `LLMResponse` nothing is appended (no corrective
entry) and no further turn runs. -/
theorem protocol_violation_stops_loop :
    ∀ (env : LoopEnv) (reg : List (String × Tool)) (fuel t : Nat)
      (h : List HistoryEntry),
      strContains (env.gen (history_to_messages h)) "<terminate>" = false →
      findToolCall (env.gen (history_to_messages h)) = Option.none →
      runFrom env reg (fuel + 1) t h =
        (h ++ [HistoryEntry.llmResponse (env.gen (history_to_messages h))],
         Outcome.protocolViolated t) := by
  intro env reg fuel t h hterm hfind
  simp [runFrom, hterm, hfind]

/-- Backend fixture answering plain prose (no marker, no wrapper). -/
def envProse : LoopEnv :=
  { gen := fun _ => "I will now create the file.",
    jsonLoads := fun _ => Except.ok PyVal.none }

/-- Claim C6 witness: a concrete prose response stops turn 1 as a
protocol violation with only the `LLMResponse` appended. -/
theorem protocol_violation_stops_loop_witness :
    runFrom envProse [] 5 1 [] =
      ([HistoryEntry.llmResponse "I will now create the file."],
       Outcome.protocolViolated 1) :=
  protocol_violation_stops_loop envProse [] 4 1 [] (by decide) (by decide)

/-- Each loop iteration appends exactly one `LLMResponse`, so the number
of issued turns grows by at most the remaining fuel, and exhaustion means
the whole budget was used. -/
lemma runFrom_turn_count (env : LoopEnv) (reg : List (String × Tool)) :
    ∀ (fuel t : Nat) (h : List HistoryEntry),
      turnsIssued (runFrom env reg fuel t h).1 ≤ turnsIssued h + fuel ∧
      ((runFrom env reg fuel t h).2 = Outcome.exhausted →
        turnsIssued (runFrom env reg fuel t h).1 = turnsIssued h + fuel) := by
  intro fuel
  induction fuel with
  | zero => intro t h; simp [runFrom]
  | succ n ih =>
    intro t h
    simp only [runFrom]
    split
    · constructor
      · simp [turnsIssued, List.countP_append]; try omega
      · intro hc; simp at hc
    · split
      · split
        · obtain ⟨ih1, ih2⟩ := ih (t + 1) _
          simp only [turnsIssued, List.countP_append, List.countP_cons, List.countP_nil] at ih1 ih2 ⊢
          constructor
          · refine le_trans ih1 ?_
            simp [List.countP_append]
            omega
          · intro hc
            rw [ih2 hc]
            simp [List.countP_append]
            omega
        · rename_i call_obj heq
          split
          · rename_i h2 tcr hexec
            have hshape := execute_tool_ok_shape reg
              (h ++ [HistoryEntry.llmResponse (env.gen (history_to_messages h))]) call_obj
              h2 tcr hexec
            have hstep : turnsIssued h2 = turnsIssued h + 1 := by
              rw [hshape]; simp [turnsIssued, List.countP_append, List.countP_cons]
            obtain ⟨ih1, ih2⟩ := ih (t + 1) h2
            rw [hstep] at ih1 ih2
            exact ⟨by omega, fun hc => by rw [ih2 hc]; omega⟩
          · constructor
            · simp [turnsIssued, List.countP_append]; try omega
            · intro hc; simp at hc
      · constructor
        · simp [turnsIssued, List.countP_append]; try omega
        · intro hc; simp at hc

/-- Every run ends exhausted, crashed, or stopped (terminated or
protocol-violated) at a turn within the window `[t, t + fuel)`. -/
lemma runFrom_outcome_range (env : LoopEnv) (reg : List (String × Tool)) :
    ∀ (fuel t : Nat) (h : List HistoryEntry),
      (runFrom env reg fuel t h).2 = Outcome.exhausted ∨
      (∃ u, t ≤ u ∧ u < t + fuel ∧
        ((runFrom env reg fuel t h).2 = Outcome.terminated u ∨
         (runFrom env reg fuel t h).2 = Outcome.protocolViolated u)) ∨
      (∃ e, (runFrom env reg fuel t h).2 = Outcome.crashed e) := by
  intro fuel
  induction fuel with
  | zero => intro t h; left; rfl
  | succ n ih =>
    intro t h
    simp only [runFrom]
    split
    · exact Or.inr (Or.inl ⟨t, le_refl t, by omega, Or.inl rfl⟩)
    · split
      · split
        · rcases ih (t + 1) _ with h1 | ⟨u, hu1, hu2, hu3⟩ | ⟨e, he⟩
          · exact Or.inl h1
          · exact Or.inr (Or.inl ⟨u, by omega, by omega, hu3⟩)
          · exact Or.inr (Or.inr ⟨e, he⟩)
        · split
          · rcases ih (t + 1) _ with h1 | ⟨u, hu1, hu2, hu3⟩ | ⟨e, he⟩
            · exact Or.inl h1
            · exact Or.inr (Or.inl ⟨u, by omega, by omega, hu3⟩)
            · exact Or.inr (Or.inr ⟨e, he⟩)
          · exact Or.inr (Or.inr ⟨_, rfl⟩)
      · exact Or.inr (Or.inl ⟨t, le_refl t, by omega, Or.inr rfl⟩)

/-- Claim C4: the loop issues at most `max_turns` turns; a run that ends
`Exhausted` issued exactly `max_turns` turns (no turn `max_turns + 1` is
ever issued), every other run stopped at some turn within the budget (or
crashed); and `max_turns` defaults to 50 when the configuration key is
absent. -/
theorem max_turns_bounds_loop :
    (∀ (env : LoopEnv) (reg : List (String × Tool)) (maxTurns : Nat) (s u : String),
      turnsIssued (run env reg maxTurns s u).1 ≤ maxTurns) ∧
    (∀ (env : LoopEnv) (reg : List (String × Tool)) (maxTurns : Nat) (s u : String),
      (run env reg maxTurns s u).2 = Outcome.exhausted →
      turnsIssued (run env reg maxTurns s u).1 = maxTurns) ∧
    (∀ (env : LoopEnv) (reg : List (String × Tool)) (maxTurns : Nat) (s u : String),
      (run env reg maxTurns s u).2 = Outcome.exhausted ∨
      (∃ t, 1 ≤ t ∧ t ≤ maxTurns ∧
        ((run env reg maxTurns s u).2 = Outcome.terminated t ∨
         (run env reg maxTurns s u).2 = Outcome.protocolViolated t)) ∨
      (∃ e, (run env reg maxTurns s u).2 = Outcome.crashed e)) ∧
    (∀ (config : List (String × PyVal)),
      argLookup config "max_turns" = Option.none →
      get_config_value (PyVal.dict config) "max_turns" (PyVal.int 50) =
        Except.ok (PyVal.int 50)) := by
  have hinit : ∀ s u : String,
      turnsIssued [HistoryEntry.systemPrompt s, HistoryEntry.userInstruction u] = 0 := by
    intro s u; rfl
  refine ⟨?_, ?_, ?_, ?_⟩
  · intro env reg maxTurns s u
    have := (runFrom_turn_count env reg maxTurns 1
      [HistoryEntry.systemPrompt s, HistoryEntry.userInstruction u]).1
    rw [hinit] at this
    simpa [run] using this
  · intro env reg maxTurns s u hex
    have := (runFrom_turn_count env reg maxTurns 1
      [HistoryEntry.systemPrompt s, HistoryEntry.userInstruction u]).2
    rw [hinit] at this
    simpa [run] using this (by simpa [run] using hex)
  · intro env reg maxTurns s u
    have := runFrom_outcome_range env reg maxTurns 1
      [HistoryEntry.systemPrompt s, HistoryEntry.userInstruction u]
    rcases this with h1 | ⟨t, ht1, ht2, ht3⟩ | ⟨e, he⟩
    · exact Or.inl (by simpa [run] using h1)
    · exact Or.inr (Or.inl ⟨t, ht1, by omega, by simpa [run] using ht3⟩)
    · exact Or.inr (Or.inr ⟨e, by simpa [run] using he⟩)
  · intro config hc
    show configWalk ["max_turns"] (PyVal.dict config) (PyVal.int 50) = Except.ok (PyVal.int 50)
    simp only [configWalk, pyIn, hc, Option.isSome_none]
    rfl

/-- Backend fixture answering every turn with the same well-formed tool
call (the run can only stop by exhausting its budget). -/
def envAlwaysCall : LoopEnv :=
  { gen := fun _ => "<tool_call>\x7b\x7d</tool_call>",
    jsonLoads := fun _ => Except.ok (PyVal.dict []) }

/-- Claim C4 witness: with the always-calling backend and budget 2, the
run is exhausted having issued exactly 2 turns; and the default applies
to a concrete configuration lacking the key. -/
theorem max_turns_bounds_loop_witness :
    turnsIssued (run envAlwaysCall [] 2 "s" "u").1 = 2 ∧
    get_config_value (PyVal.dict [("llm_type", PyVal.str "mock")]) "max_turns"
        (PyVal.int 50) = Except.ok (PyVal.int 50) :=
  ⟨max_turns_bounds_loop.2.1 envAlwaysCall [] 2 "s" "u" rfl,
   max_turns_bounds_loop.2.2.2 [("llm_type", PyVal.str "mock")] rfl⟩

/-! Reduction lemmas for `validateArgs` on a dict input, one per
decision of the validation loop body. -/

lemma validateArgs_cons_absent_required (a : ToolArgument) (rest : List ToolArgument)
    (m : List (String × PyVal)) (hl : argLookup m a.name = Option.none)
    (hreq : a.required = true) :
    validateArgs (a :: rest) (PyVal.dict m) =
      Except.error ⟨"ValueError", "Argument " ++ a.name ++ " is required"⟩ := by
  simp [validateArgs, pyIn, pyGetItem, hl, hreq, Bind.bind, Except.bind]

lemma validateArgs_cons_absent_optional (a : ToolArgument) (rest : List ToolArgument)
    (m : List (String × PyVal)) (hl : argLookup m a.name = Option.none)
    (hreq : a.required = false) :
    validateArgs (a :: rest) (PyVal.dict m) = validateArgs rest (PyVal.dict m) := by
  simp [validateArgs, pyIn, pyGetItem, hl, hreq, Bind.bind, Except.bind]

lemma validateArgs_cons_present_bad (a : ToolArgument) (rest : List ToolArgument)
    (m : List (String × PyVal)) (v : PyVal) (hl : argLookup m a.name = Option.some v)
    (hval : a.validate v = false) :
    validateArgs (a :: rest) (PyVal.dict m) =
      Except.error ⟨"ValueError", "Argument " ++ a.name ++ " is invalid"⟩ := by
  simp [validateArgs, pyIn, pyGetItem, hl, hval, Bind.bind, Except.bind]

lemma validateArgs_cons_present_good (a : ToolArgument) (rest : List ToolArgument)
    (m : List (String × PyVal)) (v : PyVal) (hl : argLookup m a.name = Option.some v)
    (hval : a.validate v = true) :
    validateArgs (a :: rest) (PyVal.dict m) = validateArgs rest (PyVal.dict m) := by
  simp [validateArgs, pyIn, pyGetItem, hl, hval, Bind.bind, Except.bind]

lemma argLookup_mem : ∀ (m : List (String × PyVal)) (k : String) (v : PyVal),
    argLookup m k = Option.some v → (k, v) ∈ m := by
  intro m
  induction m with
  | nil => intro k v h; simp [argLookup] at h
  | cons p rest ih =>
    intro k v h
    obtain ⟨k2, v2⟩ := p
    by_cases hk : k2 = k
    · simp only [argLookup, if_pos hk, Option.some.injEq] at h
      subst hk; subst h
      exact List.mem_cons_self _ _
    · simp only [argLookup, if_neg hk] at h
      exact List.mem_cons_of_mem _ (ih k v h)

lemma argLookup_eq_none_iff : ∀ (m : List (String × PyVal)) (k : String),
    argLookup m k = Option.none ↔ k ∉ m.map Prod.fst := by
  intro m
  induction m with
  | nil => intro k; simp [argLookup]
  | cons p rest ih =>
    intro k
    obtain ⟨k2, v2⟩ := p
    by_cases hk : k2 = k
    · simp [argLookup, hk]
    · simp [argLookup, hk, ih k, Ne.symm hk]

lemma argLookup_of_mem_nodup : ∀ (m : List (String × PyVal)) (k : String) (v : PyVal),
    (k, v) ∈ m → (m.map Prod.fst).Nodup → argLookup m k = Option.some v := by
  intro m
  induction m with
  | nil => intro k v h _; simp at h
  | cons p rest ih =>
    intro k v h hnd
    obtain ⟨k2, v2⟩ := p
    simp only [List.map_cons, List.nodup_cons] at hnd
    rcases List.mem_cons.mp h with heq | hmem
    · cases heq
      simp [argLookup]
    · by_cases hk : k2 = k
      · exfalso
        subst hk
        exact hnd.1 (List.mem_map_of_mem Prod.fst hmem)
      · simp only [argLookup, if_neg hk]
        exact ih k v hmem hnd.2

lemma argLookup_perm_nodup (m m' : List (String × PyVal)) (hp : m.Perm m')
    (hn : (m.map Prod.fst).Nodup) (k : String) : argLookup m k = argLookup m' k := by
  have hn' : (m'.map Prod.fst).Nodup := ((hp.map Prod.fst).nodup_iff).mp hn
  cases h : argLookup m k with
  | none =>
    have hk : k ∉ m.map Prod.fst := (argLookup_eq_none_iff m k).mp h
    have hk' : k ∉ m'.map Prod.fst := fun hx => hk ((hp.map Prod.fst).mem_iff.mpr hx)
    rw [(argLookup_eq_none_iff m' k).mpr hk']
  | some v =>
    have hv : (k, v) ∈ m' := hp.mem_iff.mp (argLookup_mem m k v h)
    rw [argLookup_of_mem_nodup m' k v hv hn']

/-- The validation loop reads the supplied mapping only through lookups
of the declared argument names. -/
lemma validateArgs_lookup_congr : ∀ (args : List ToolArgument)
    (m m' : List (String × PyVal)),
    (∀ a ∈ args, argLookup m a.name = argLookup m' a.name) →
    validateArgs args (PyVal.dict m) = validateArgs args (PyVal.dict m') := by
  intro args
  induction args with
  | nil => intro m m' _; rfl
  | cons a rest ih =>
    intro m m' hagree
    have ha := hagree a (List.mem_cons_self a rest)
    have hrest : ∀ b ∈ rest, argLookup m b.name = argLookup m' b.name :=
      fun b hb => hagree b (List.mem_cons_of_mem a hb)
    cases hl : argLookup m a.name with
    | none =>
      have ha' : argLookup m' a.name = Option.none := by rw [← ha, hl]
      cases hreq : a.required with
      | true =>
        rw [validateArgs_cons_absent_required a rest m hl hreq,
            validateArgs_cons_absent_required a rest m' ha' hreq]
      | false =>
        rw [validateArgs_cons_absent_optional a rest m hl hreq,
            validateArgs_cons_absent_optional a rest m' ha' hreq]
        exact ih m m' hrest
    | some v =>
      have ha' : argLookup m' a.name = Option.some v := by rw [← ha, hl]
      cases hval : a.validate v with
      | false =>
        rw [validateArgs_cons_present_bad a rest m v hl hval,
            validateArgs_cons_present_bad a rest m' v ha' hval]
      | true =>
        rw [validateArgs_cons_present_good a rest m v hl hval,
            validateArgs_cons_present_good a rest m' v ha' hval]
        exact ih m m' hrest

/-- The validation loop rejects exactly when some declared argument is
required-but-absent or present-with-invalid-value. -/
lemma validateArgs_error_iff : ∀ (args : List ToolArgument) (m : List (String × PyVal)),
    (∃ e, validateArgs args (PyVal.dict m) = Except.error e) ↔
      ∃ a, a ∈ args ∧
        ((a.required = true ∧ argLookup m a.name = Option.none) ∨
         (∃ v, argLookup m a.name = Option.some v ∧ a.validate v = false)) := by
  intro args
  induction args with
  | nil => intro m; simp [validateArgs]
  | cons a rest ih =>
    intro m
    cases hl : argLookup m a.name with
    | none =>
      cases hreq : a.required with
      | true =>
        constructor
        · intro _
          exact ⟨a, List.mem_cons_self a rest, Or.inl ⟨hreq, hl⟩⟩
        · intro _
          exact ⟨_, validateArgs_cons_absent_required a rest m hl hreq⟩
      | false =>
        rw [validateArgs_cons_absent_optional a rest m hl hreq, ih m]
        constructor
        · rintro ⟨b, hb, hcase⟩
          exact ⟨b, List.mem_cons_of_mem a hb, hcase⟩
        · rintro ⟨b, hb, hcase⟩
          rcases List.mem_cons.mp hb with rfl | hbr
          · rcases hcase with ⟨h1, _⟩ | ⟨w, h1, _⟩
            · rw [hreq] at h1; exact absurd h1 (by simp)
            · rw [hl] at h1; exact absurd h1 (by simp)
          · exact ⟨b, hbr, hcase⟩
    | some v =>
      cases hval : a.validate v with
      | false =>
        constructor
        · intro _
          exact ⟨a, List.mem_cons_self a rest, Or.inr ⟨v, hl, hval⟩⟩
        · intro _
          exact ⟨_, validateArgs_cons_present_bad a rest m v hl hval⟩
      | true =>
        rw [validateArgs_cons_present_good a rest m v hl hval, ih m]
        constructor
        · rintro ⟨b, hb, hcase⟩
          exact ⟨b, List.mem_cons_of_mem a hb, hcase⟩
        · rintro ⟨b, hb, hcase⟩
          rcases List.mem_cons.mp hb with rfl | hbr
          · rcases hcase with ⟨_, h2⟩ | ⟨w, h1, h2⟩
            · rw [hl] at h2; exact absurd h2 (by simp)
            · rw [hl] at h1
              injection h1 with h1
              subst h1
              rw [hval] at h2
              exact absurd h2 (by simp)
          · exact ⟨b, hbr, hcase⟩

/-- Every rejection carries one of the two message shapes, naming a
declared argument. -/
lemma validateArgs_error_msg : ∀ (args : List ToolArgument) (m : List (String × PyVal))
    (e : PyExc), validateArgs args (PyVal.dict m) = Except.error e →
      ∃ a, a ∈ args ∧
        (e = ⟨"ValueError", "Argument " ++ a.name ++ " is required"⟩ ∨
         e = ⟨"ValueError", "Argument " ++ a.name ++ " is invalid"⟩) := by
  intro args
  induction args with
  | nil => intro m e h; exact absurd h (by simp [validateArgs])
  | cons a rest ih =>
    intro m e h
    cases hl : argLookup m a.name with
    | none =>
      cases hreq : a.required with
      | true =>
        rw [validateArgs_cons_absent_required a rest m hl hreq] at h
        injection h with h
        exact ⟨a, List.mem_cons_self a rest, Or.inl h.symm⟩
      | false =>
        rw [validateArgs_cons_absent_optional a rest m hl hreq] at h
        obtain ⟨b, hb, hcase⟩ := ih m e h
        exact ⟨b, List.mem_cons_of_mem a hb, hcase⟩
    | some v =>
      cases hval : a.validate v with
      | false =>
        rw [validateArgs_cons_present_bad a rest m v hl hval] at h
        injection h with h
        exact ⟨a, List.mem_cons_self a rest, Or.inr h.symm⟩
      | true =>
        rw [validateArgs_cons_present_good a rest m v hl hval] at h
        obtain ⟨b, hb, hcase⟩ := ih m e h
        exact ⟨b, List.mem_cons_of_mem a hb, hcase⟩

/-- Claim C8: schema validation rejects (raises) exactly when some
declared required argument is absent or some declared argument is present
with a value of the wrong declared type; every rejection message has the
"Argument <name> is required" or "Argument <name> is invalid" shape; the
outcome is invariant under reordering of the supplied mapping; and
supplied arguments not declared in the schema are passed through
unchecked. -/
theorem schema_validate_spec :
    (∀ (s : ToolSchema) (m : List (String × PyVal)),
      (∃ e, s.validate (PyVal.dict m) = Except.error e) ↔
        ∃ a, a ∈ s.arguments ∧
          ((a.required = true ∧ argLookup m a.name = Option.none) ∨
           (∃ v, argLookup m a.name = Option.some v ∧ a.validate v = false))) ∧
    (∀ (s : ToolSchema) (m : List (String × PyVal)) (e : PyExc),
      s.validate (PyVal.dict m) = Except.error e →
        ∃ a, a ∈ s.arguments ∧
          (e = ⟨"ValueError", "Argument " ++ a.name ++ " is required"⟩ ∨
           e = ⟨"ValueError", "Argument " ++ a.name ++ " is invalid"⟩)) ∧
    (∀ (s : ToolSchema) (m m' : List (String × PyVal)),
      m.Perm m' → (m.map Prod.fst).Nodup →
      s.validate (PyVal.dict m) = s.validate (PyVal.dict m')) ∧
    (∀ (s : ToolSchema) (m : List (String × PyVal)) (k : String) (v : PyVal),
      (∀ a ∈ s.arguments, a.name ≠ k) →
      s.validate (PyVal.dict ((k, v) :: m)) = s.validate (PyVal.dict m)) := by
  refine ⟨?_, ?_, ?_, ?_⟩
  · intro s m
    exact validateArgs_error_iff s.arguments m
  · intro s m e h
    exact validateArgs_error_msg s.arguments m e h
  · intro s m m' hp hn
    exact validateArgs_lookup_congr s.arguments m m'
      (fun a _ => argLookup_perm_nodup m m' hp hn a.name)
  · intro s m k v hk
    refine validateArgs_lookup_congr s.arguments _ m (fun a ha => ?_)
    have hne : k ≠ a.name := Ne.symm (hk a ha)
    simp [argLookup, hne]

/-- A concrete schema fixture: one required string argument `path`. -/
def writeSchema : ToolSchema :=
  ⟨[⟨"path", "file path", true, Option.some PyType.str⟩]⟩

/-- Claim C8 witness: the rejection characterization instantiated on the
concrete `path` schema and an empty argument mapping (required argument
absent). -/
theorem schema_validate_spec_witness :
    ∃ e, ToolSchema.validate writeSchema (PyVal.dict []) = Except.error e :=
  (schema_validate_spec.1 writeSchema []).mpr
    ⟨⟨"path", "file path", true, Option.some PyType.str⟩,
     List.mem_cons_self _ _, Or.inl ⟨rfl, rfl⟩⟩

lemma natLookup_dictInsert_self : ∀ (m : List (String × Nat)) (k : String) (v : Nat),
    natLookup (dictInsertNat m k v) k = Option.some v := by
  intro m
  induction m with
  | nil => intro k v; simp [dictInsertNat, natLookup]
  | cons p rest ih =>
    intro k v
    obtain ⟨k2, v2⟩ := p
    by_cases hk : k2 = k
    · simp [dictInsertNat, natLookup, hk]
    · simp [dictInsertNat, natLookup, hk, ih k v]

lemma natLookup_dictInsert_ne : ∀ (m : List (String × Nat)) (k : String) (v : Nat)
    (n : String), k ≠ n →
    natLookup (dictInsertNat m k v) n = natLookup m n := by
  intro m
  induction m with
  | nil => intro k v n hkn; simp [dictInsertNat, natLookup, hkn]
  | cons p rest ih =>
    intro k v n hkn
    obtain ⟨k2, v2⟩ := p
    by_cases hk : k2 = k
    · subst hk
      simp [dictInsertNat, natLookup, hkn]
    · simp [dictInsertNat, natLookup, hk, ih k v n hkn]

/-- Registration never inserts a name the configured allow-list lacks. -/
lemma build_disallowed_never_registered (allow : List String) (n : String)
    (hn : allow.contains n = false) :
    ∀ (cands : List CandidateTool) (reg : List (String × Nat)),
      natLookup reg n = Option.none →
      natLookup (cands.foldl (registerStep (Option.some allow)) reg) n = Option.none := by
  intro cands
  induction cands with
  | nil => intro reg hreg; simpa using hreg
  | cons c rest ih =>
    intro reg hreg
    refine ih (registerStep (Option.some allow) reg c) ?_
    have hstep : registerStep (Option.some allow) reg c = reg ∨
        (∃ n2, c.name = Option.some n2 ∧ allow.contains n2 = true ∧
          registerStep (Option.some allow) reg c = dictInsertNat reg n2 c.id) := by
      unfold registerStep
      cases hc : c.name with
      | none => exact Or.inl rfl
      | some n2 =>
        cases he2 : n2.isEmpty with
        | true => exact Or.inl (by simp [he2])
        | false =>
          cases hmem : allow.contains n2 with
          | true =>
            have hm2 : n2 ∈ allow := by simpa using hmem
            exact Or.inr ⟨n2, rfl, hmem, by simp [he2, hm2]⟩
          | false =>
            have hm2 : n2 ∉ allow := by simpa using hmem
            exact Or.inl (by simp [he2, hm2])
    rcases hstep with hstep | ⟨n2, _, hmem, hstep⟩
    · rw [hstep]
      exact hreg
    · have hne : n2 ≠ n := by
        intro hEq
        rw [hEq, hn] at hmem
        exact Bool.noConfusion hmem
      rw [hstep, natLookup_dictInsert_ne reg n2 c.id n hne]
      exact hreg

/-- Claim C9: during registry construction, a candidate whose name is
absent from a configured allow-list is never registered; whether
`initialize` raises has no effect on what gets registered (fail-open);
and of two candidates sharing a name, the later one wins the registry
slot. -/
theorem registry_construction_spec :
    (∀ (allow : List String) (cands : List CandidateTool) (n : String),
      allow.contains n = false →
      natLookup (build_tool_registry (Option.some allow) cands) n = Option.none) ∧
    (∀ (allowed : Option (List String)) (cands : List CandidateTool)
      (f : CandidateTool → Bool),
      build_tool_registry allowed
          (cands.map fun c => ⟨c.id, c.name, f c⟩) =
        build_tool_registry allowed cands) ∧
    (∀ (allowed : Option (List String)) (cands : List CandidateTool)
      (c : CandidateTool) (n : String),
      c.name = Option.some n → n.isEmpty = false → allowPasses allowed n = true →
      natLookup (build_tool_registry allowed (cands ++ [c])) n = Option.some c.id) := by
  refine ⟨?_, ?_, ?_⟩
  · intro allow cands n hn
    exact build_disallowed_never_registered allow n hn cands [] rfl
  · intro allowed cands f
    unfold build_tool_registry
    rw [List.foldl_map]
    rfl
  · intro allowed cands c n hc he hp
    unfold build_tool_registry
    rw [List.foldl_append]
    simp only [List.foldl_cons, List.foldl_nil]
    have hstep : registerStep allowed (List.foldl (registerStep allowed) [] cands) c =
        dictInsertNat (List.foldl (registerStep allowed) [] cands) n c.id := by
      unfold registerStep
      rw [hc]
      cases allowed with
      | none => simp [he]
      | some allow =>
        have hm : n ∈ allow := by simpa [allowPasses] using hp
        simp [he, hm]
    rw [hstep]
    exact natLookup_dictInsert_self _ n c.id

/-- Claim C9 witness: a later candidate named `a` (whose `initialize`
does not fail) replaces an earlier one (whose `initialize` fails) under
an allow-list containing `a`. -/
theorem registry_construction_spec_witness :
    natLookup
        (build_tool_registry (Option.some ["a"])
          ([⟨0, Option.some "a", true⟩] ++ [⟨1, Option.some "a", false⟩])) "a" =
      Option.some 1 :=
  registry_construction_spec.2.2 (Option.some ["a"]) [⟨0, Option.some "a", true⟩]
    ⟨1, Option.some "a", false⟩ "a" rfl rfl rfl

/-- A failed registry lookup on a hashable name raises `KeyError` (the
only exception `execute_tool`'s `except KeyError` then catches). -/
lemma get_tool_error_keyError (reg : List (String × Tool)) (v : PyVal) (e : PyExc)
    (hh : v.unhashable = false) (hg : get_tool reg v = Except.error e) :
    e.kind = "KeyError" := by
  cases v with
  | list xs => exact absurd hh (by simp [PyVal.unhashable])
  | dict xs => exact absurd hh (by simp [PyVal.unhashable])
  | str s =>
    simp only [get_tool] at hg
    cases htl : toolLookup reg s with
    | some tool => rw [htl] at hg; exact Except.noConfusion hg
    | none =>
      rw [htl] at hg
      injection hg with hg
      rw [← hg]
  | none =>
    simp only [get_tool] at hg
    injection hg with hg
    rw [← hg]
  | bool b =>
    simp only [get_tool] at hg
    injection hg with hg
    rw [← hg]
  | int n =>
    simp only [get_tool] at hg
    injection hg with hg
    rw [← hg]
  | obj c st =>
    simp only [get_tool] at hg
    injection hg with hg
    rw [← hg]

/-- Claim C1 counterexample: two parsed tool-call objects on which the
claimed disposition order fails. On `{"tool": 0}` — field present and
neither empty nor a registered name — dispatch produces the
"Missing 'tool' in tool_call" disposition (the field is falsy), not the
"Unknown tool: 0" disposition the claimed first-match order prescribes.
And on `{"tool": [1]}` the registry lookup raises
`TypeError: unhashable type: 'list'`, which `except KeyError` does not
catch: dispatch raises past the boundary and appends no
`ToolExecutionResult` at all. -/
theorem execute_tool_falsy_tool_counterexample :
    (execute_tool [] [] (PyVal.dict [("tool", PyVal.int 0)]) =
      Except.ok
        ([HistoryEntry.toolCallResult
            ⟨"(missing)", PyVal.dict [], PyVal.none,
             Option.some "Missing \x27tool\x27 in tool_call"⟩],
         ⟨"(missing)", PyVal.dict [], PyVal.none,
          Option.some "Missing \x27tool\x27 in tool_call"⟩)
    ∧ ("Missing \x27tool\x27 in tool_call" : String) ≠
        "Unknown tool: " ++ pyStr (PyVal.int 0))
    ∧ execute_tool [] [] (PyVal.dict [("tool", PyVal.list [PyVal.int 1])]) =
        Except.error ⟨"TypeError", "unhashable type: \x27list\x27"⟩ :=
  ⟨⟨rfl, by decide⟩, rfl⟩

/-- Claim C1 (amended): for every parsed tool-call object whose `tool`
field — when present and truthy — is not an unhashable value (a JSON
array or object), dispatch never raises, appends exactly one
`ToolCallResult` to the history, and the result is determined by the
first matching disposition in this order: (1) `tool` field missing or
falsy (null, false, 0, empty string, empty array, empty object);
(2) name not a registered key, the lookup's `KeyError` being caught;
(3) schema validation raises; (4) `execute` raises; (5) success. On a
truthy unhashable `tool` field the lookup's `TypeError` instead escapes
the dispatch boundary uncaught. In every disposition the loop proceeds
to the next turn. -/
theorem execute_tool_dispatch_spec :
    (∀ (reg : List (String × Tool)) (history : List HistoryEntry)
       (m : List (String × PyVal)),
      (∀ v, argLookup m "tool" = Option.some v → v.falsy = false →
        v.unhashable = false) →
      ∃ tcr : ToolCallResult,
        execute_tool reg history (PyVal.dict m) =
          Except.ok (history ++ [HistoryEntry.toolCallResult tcr], tcr) ∧
        ((argLookup m "tool" = Option.none ∨
            (∃ v, argLookup m "tool" = Option.some v ∧ v.falsy = true)) →
          tcr.error = Option.some "Missing \x27tool\x27 in tool_call") ∧
        (∀ v e, argLookup m "tool" = Option.some v → v.falsy = false →
          get_tool reg v = Except.error e →
          tcr.error = Option.some ("Unknown tool: " ++ pyStr v)) ∧
        (∀ v tool e, argLookup m "tool" = Option.some v → v.falsy = false →
          get_tool reg v = Except.ok tool →
          tool.schema.validate ((argLookup m "arguments").getD (PyVal.dict [])) =
            Except.error e →
          tcr.error = Option.some ("Invalid arguments: " ++ e.msg)) ∧
        (∀ v tool b e, argLookup m "tool" = Option.some v → v.falsy = false →
          get_tool reg v = Except.ok tool →
          tool.schema.validate ((argLookup m "arguments").getD (PyVal.dict [])) =
            Except.ok b →
          tool.execute ((argLookup m "arguments").getD (PyVal.dict [])) =
            Except.error e →
          tcr.error = Option.some (e.kind ++ ": " ++ e.msg)) ∧
        (∀ v tool b r, argLookup m "tool" = Option.some v → v.falsy = false →
          get_tool reg v = Except.ok tool →
          tool.schema.validate ((argLookup m "arguments").getD (PyVal.dict [])) =
            Except.ok b →
          tool.execute ((argLookup m "arguments").getD (PyVal.dict [])) =
            Except.ok r →
          tcr.result = r ∧ tcr.error = Option.none)) ∧
    (∀ (reg : List (String × Tool)) (history : List HistoryEntry)
       (m : List (String × PyVal)) (v : PyVal),
      argLookup m "tool" = Option.some v → v.falsy = false →
      v.unhashable = true →
      ∃ e, execute_tool reg history (PyVal.dict m) = Except.error e ∧
        e.kind = "TypeError") ∧
    (∀ (env : LoopEnv) (reg : List (String × Tool)) (fuel t : Nat)
       (h : List HistoryEntry) (inner : String) (call_obj : PyVal)
       (h2 : List HistoryEntry) (tcr : ToolCallResult),
      strContains (env.gen (history_to_messages h)) "<terminate>" = false →
      findToolCall (env.gen (history_to_messages h)) = Option.some inner →
      env.jsonLoads (pyStrip inner) = Except.ok call_obj →
      execute_tool reg (h ++ [HistoryEntry.llmResponse (env.gen (history_to_messages h))])
          call_obj = Except.ok (h2, tcr) →
      runFrom env reg (fuel + 1) t h = runFrom env reg fuel (t + 1) h2) := by
  refine ⟨?_, ?_, ?_⟩
  · intro reg history m hscope
    cases hl : argLookup m "tool" with
    | none =>
      refine ⟨⟨"(missing)", (argLookup m "arguments").getD (PyVal.dict []), PyVal.none,
        Option.some "Missing \x27tool\x27 in tool_call"⟩, ?_, ?_, ?_, ?_, ?_, ?_⟩
      · simp [execute_tool, hl]
      · intro _; rfl
      · intro v e hv _ _
        exact Option.noConfusion hv
      · intro v tool e hv _ _ _
        exact Option.noConfusion hv
      · intro v tool b e hv _ _ _ _
        exact Option.noConfusion hv
      · intro v tool b r hv _ _ _ _
        exact Option.noConfusion hv
    | some v =>
      cases hf : v.falsy with
      | true =>
        refine ⟨⟨"(missing)", (argLookup m "arguments").getD (PyVal.dict []), PyVal.none,
          Option.some "Missing \x27tool\x27 in tool_call"⟩, ?_, ?_, ?_, ?_, ?_, ?_⟩
        · simp [execute_tool, hl, hf]
        · intro _; rfl
        · intro v' e hv' hf' _
          injection hv' with hv'; subst hv'
          rw [hf] at hf'; exact Bool.noConfusion hf'
        · intro v' tool e hv' hf' _ _
          injection hv' with hv'; subst hv'
          rw [hf] at hf'; exact Bool.noConfusion hf'
        · intro v' tool b e hv' hf' _ _ _
          injection hv' with hv'; subst hv'
          rw [hf] at hf'; exact Bool.noConfusion hf'
        · intro v' tool b r hv' hf' _ _ _
          injection hv' with hv'; subst hv'
          rw [hf] at hf'; exact Bool.noConfusion hf'
      | false =>
        have hh : v.unhashable = false := hscope v hl hf
        cases hg : get_tool reg v with
        | error e =>
          have hkind : e.kind = "KeyError" := get_tool_error_keyError reg v e hh hg
          refine ⟨⟨pyStr v, (argLookup m "arguments").getD (PyVal.dict []), PyVal.none,
            Option.some ("Unknown tool: " ++ pyStr v)⟩, ?_, ?_, ?_, ?_, ?_, ?_⟩
          · simp [execute_tool, hl, hf, hg, hkind]
          · rintro (hmiss | ⟨w, hw, hwf⟩)
            · exact Option.noConfusion hmiss
            · injection hw with hw; subst hw
              rw [hf] at hwf; exact Bool.noConfusion hwf
          · intro v' e' hv' _ _
            injection hv' with hv'; subst hv'
            rfl
          · intro v' tool e' hv' _ hg' _
            injection hv' with hv'; subst hv'
            rw [hg] at hg'; exact Except.noConfusion hg'
          · intro v' tool b e' hv' _ hg' _ _
            injection hv' with hv'; subst hv'
            rw [hg] at hg'; exact Except.noConfusion hg'
          · intro v' tool b r hv' _ hg' _ _
            injection hv' with hv'; subst hv'
            rw [hg] at hg'; exact Except.noConfusion hg'
        | ok tool =>
          cases hval : tool.schema.validate ((argLookup m "arguments").getD (PyVal.dict []))
            with
          | error e =>
            refine ⟨⟨pyStr v, (argLookup m "arguments").getD (PyVal.dict []), PyVal.none,
              Option.some ("Invalid arguments: " ++ e.msg)⟩, ?_, ?_, ?_, ?_, ?_, ?_⟩
            · simp [execute_tool, hl, hf, hg, hval]
            · rintro (hmiss | ⟨w, hw, hwf⟩)
              · exact Option.noConfusion hmiss
              · injection hw with hw; subst hw
                rw [hf] at hwf; exact Bool.noConfusion hwf
            · intro v' e' hv' _ hg'
              injection hv' with hv'; subst hv'
              rw [hg] at hg'; exact Except.noConfusion hg'
            · intro v' tool' e' hv' _ hg' hval'
              injection hv' with hv'; subst hv'
              rw [hg] at hg'; injection hg' with hg'; subst hg'
              rw [hval] at hval'; injection hval' with hval'; subst hval'
              rfl
            · intro v' tool' b e' hv' _ hg' hval' _
              injection hv' with hv'; subst hv'
              rw [hg] at hg'; injection hg' with hg'; subst hg'
              rw [hval] at hval'; exact Except.noConfusion hval'
            · intro v' tool' b r hv' _ hg' hval' _
              injection hv' with hv'; subst hv'
              rw [hg] at hg'; injection hg' with hg'; subst hg'
              rw [hval] at hval'; exact Except.noConfusion hval'
          | ok b =>
            cases hex : tool.execute ((argLookup m "arguments").getD (PyVal.dict [])) with
            | error e =>
              refine ⟨⟨pyStr v, (argLookup m "arguments").getD (PyVal.dict []), PyVal.none,
                Option.some (e.kind ++ ": " ++ e.msg)⟩, ?_, ?_, ?_, ?_, ?_, ?_⟩
              · simp [execute_tool, hl, hf, hg, hval, hex]
              · rintro (hmiss | ⟨w, hw, hwf⟩)
                · exact Option.noConfusion hmiss
                · injection hw with hw; subst hw
                  rw [hf] at hwf; exact Bool.noConfusion hwf
              · intro v' e' hv' _ hg'
                injection hv' with hv'; subst hv'
                rw [hg] at hg'; exact Except.noConfusion hg'
              · intro v' tool' e' hv' _ hg' hval'
                injection hv' with hv'; subst hv'
                rw [hg] at hg'; injection hg' with hg'; subst hg'
                rw [hval] at hval'; exact Except.noConfusion hval'
              · intro v' tool' b' e' hv' _ hg' _ hex'
                injection hv' with hv'; subst hv'
                rw [hg] at hg'; injection hg' with hg'; subst hg'
                rw [hex] at hex'; injection hex' with hex'; subst hex'
                rfl
              · intro v' tool' b' r hv' _ hg' _ hex'
                injection hv' with hv'; subst hv'
                rw [hg] at hg'; injection hg' with hg'; subst hg'
                rw [hex] at hex'; exact Except.noConfusion hex'
            | ok r =>
              refine ⟨⟨pyStr v, (argLookup m "arguments").getD (PyVal.dict []), r,
                Option.none⟩, ?_, ?_, ?_, ?_, ?_, ?_⟩
              · simp [execute_tool, hl, hf, hg, hval, hex]
              · rintro (hmiss | ⟨w, hw, hwf⟩)
                · exact Option.noConfusion hmiss
                · injection hw with hw; subst hw
                  rw [hf] at hwf; exact Bool.noConfusion hwf
              · intro v' e' hv' _ hg'
                injection hv' with hv'; subst hv'
                rw [hg] at hg'; exact Except.noConfusion hg'
              · intro v' tool' e' hv' _ hg' hval'
                injection hv' with hv'; subst hv'
                rw [hg] at hg'; injection hg' with hg'; subst hg'
                rw [hval] at hval'; exact Except.noConfusion hval'
              · intro v' tool' b' e' hv' _ hg' _ hex'
                injection hv' with hv'; subst hv'
                rw [hg] at hg'; injection hg' with hg'; subst hg'
                rw [hex] at hex'; exact Except.noConfusion hex'
              · intro v' tool' b' r' hv' _ hg' _ hex'
                injection hv' with hv'; subst hv'
                rw [hg] at hg'; injection hg' with hg'; subst hg'
                rw [hex] at hex'; injection hex' with hex'; subst hex'
                exact ⟨rfl, rfl⟩
  · intro reg history m v hv hf hh
    cases v with
    | list xs =>
      refine ⟨⟨"TypeError", "unhashable type: \x27list\x27"⟩, ?_, rfl⟩
      simp [execute_tool, get_tool, hv, hf]
    | dict xs =>
      refine ⟨⟨"TypeError", "unhashable type: \x27dict\x27"⟩, ?_, rfl⟩
      simp [execute_tool, get_tool, hv, hf]
    | none => exact absurd hh (by simp [PyVal.unhashable])
    | bool b => exact absurd hh (by simp [PyVal.unhashable])
    | int n => exact absurd hh (by simp [PyVal.unhashable])
    | str s2 => exact absurd hh (by simp [PyVal.unhashable])
    | obj c st => exact absurd hh (by simp [PyVal.unhashable])
  · intro env reg fuel t h inner call_obj h2 tcr hterm hfind hjson hexec
    simp [runFrom, hterm, hfind, hjson, hexec]

/-- Backend fixture whose response calls an unknown tool `x`. -/
def envUnknownTool : LoopEnv :=
  { gen := fun _ => "<tool_call>\x7b\"tool\": \"x\"\x7d</tool_call>",
    jsonLoads := fun _ => Except.ok (PyVal.dict [("tool", PyVal.str "x")]) }

/-- Claim C1 witness: the loop-continuation part applied to a concrete
dispatched turn (unknown tool `x` against an empty registry), handing
control to turn 2 with the error result appended. -/
theorem execute_tool_dispatch_spec_witness :
    runFrom envUnknownTool [] 1 1 [] =
      runFrom envUnknownTool [] 0 2
        [HistoryEntry.llmResponse "<tool_call>\x7b\"tool\": \"x\"\x7d</tool_call>",
         HistoryEntry.toolCallResult
           ⟨"x", PyVal.dict [], PyVal.none, Option.some "Unknown tool: x"⟩] :=
  execute_tool_dispatch_spec.2.2 envUnknownTool [] 0 1 []
    "\x7b\"tool\": \"x\"\x7d" (PyVal.dict [("tool", PyVal.str "x")])
    [HistoryEntry.llmResponse "<tool_call>\x7b\"tool\": \"x\"\x7d</tool_call>",
     HistoryEntry.toolCallResult
       ⟨"x", PyVal.dict [], PyVal.none, Option.some "Unknown tool: x"⟩]
    ⟨"x", PyVal.dict [], PyVal.none, Option.some "Unknown tool: x"⟩
    (by decide) (by decide) rfl rfl

end WAA
